import Mathlib

set_option maxHeartbeats 1000000
set_option linter.unusedVariables false

/-!
Shallow embedding of the portable atomic-operations layer of mt-kahypar
(mt-kahypar/utils/atomic_ops.h) and of the bit utilities header in the
namespace mt_kahypar::utils.

An atomic location holds one machine word of width 1, 2, 4 or 8 bytes; the
stored word is modelled as a natural number, the unsigned bit pattern of the
location, and every operation returns its result together with the new
content of the location.  The compiler fences (_ReadWriteBarrier) in the
MSVC branch only constrain instruction reordering and never change any
stored value, so they do not appear at the value level of the embedding.
The two preprocessor branches (#ifdef _MSC_VER / #else) are embedded as the
two namespaces Msvc and Gcc, selected by a Toolchain tag in the public
mtk_atomic wrappers.
-/

namespace AtomicOps

/-- MemoryOrder enumeration of atomic_ops.h, lines 50 to 56. -/
inductive MemoryOrder
  | Relaxed
  | Acquire
  | Release
  | AcqRel
  | SeqCst
  deriving DecidableEq

/-- Width class of an atomic location: the static size of the value type,
selected by the if-constexpr chains in atomic_ops.h (1, 2, 4 or 8 bytes). -/
inductive WidthClass
  | W1
  | W2
  | W4
  | W8
  deriving DecidableEq

/-- Number of bytes of a width class. -/
def WidthClass.bytes : WidthClass → Nat
  | .W1 => 1
  | .W2 => 2
  | .W4 => 4
  | .W8 => 8

/-- Wrap-around modulus of a width class: 2 ^ (8 * bytes). -/
def WidthClass.modulus (w : WidthClass) : Nat := 2 ^ (8 * w.bytes)

/-- The two toolchain families of atomic_ops.h: the MSVC branch under
ifdef _MSC_VER and the GCC/Clang branch under the else. -/
inductive Toolchain
  | msvc
  | gcc
  deriving DecidableEq

namespace Msvc

/-- Models _InterlockedOr8/16/32/64: atomically ORs the mask into the
location and returns the ORIGINAL value.  Result is the pair (returned
original value, new location content). -/
def InterlockedOr (loc mask : Nat) : Nat × Nat :=
  (loc, loc ||| mask)

/-- Models _InterlockedExchange8/16/32/64: atomically stores the value and
returns the original value. -/
def InterlockedExchange (loc value : Nat) : Nat × Nat :=
  (loc, value)

/-- Models _InterlockedExchangeAdd8/16/32/64: atomically adds with
wrap-around on the register width and returns the original value. -/
def InterlockedExchangeAdd (w : WidthClass) (loc value : Nat) : Nat × Nat :=
  (loc, (loc + value) % w.modulus)

/-- Models _InterlockedXor8/16/32/64: atomically XORs the mask into the
location and returns the ORIGINAL value. -/
def InterlockedXor (loc mask : Nat) : Nat × Nat :=
  (loc, loc ^^^ mask)

/-- Models _InterlockedCompareExchange8/16/32/64: if the location equals the
comparand it stores the desired value; it always returns the original
value. -/
def InterlockedCompareExchange (loc desired comparand : Nat) : Nat × Nat :=
  (loc, if loc = comparand then desired else loc)

/-- detail::atomic_load, MSVC branch (atomic_ops.h lines 64 to 81): a
no-op read-modify-write, _InterlockedOr with mask 0; the barrier after the
call has no value effect.  Result is (returned value, new location). -/
def atomic_load (w : WidthClass) (loc : Nat) (order : MemoryOrder) : Nat × Nat :=
  InterlockedOr loc 0

/-- detail::atomic_store, MSVC branch (lines 83 to 98): _InterlockedExchange
with the return value discarded.  Result is the new location content. -/
def atomic_store (w : WidthClass) (loc value : Nat) (order : MemoryOrder) : Nat :=
  (InterlockedExchange loc value).2

/-- detail::atomic_exchange, MSVC branch (lines 100 to 117). -/
def atomic_exchange (w : WidthClass) (loc value : Nat) (order : MemoryOrder) : Nat × Nat :=
  InterlockedExchange loc value

/-- detail::atomic_fetch_add, MSVC branch (lines 119 to 131). -/
def atomic_fetch_add (w : WidthClass) (loc value : Nat) (order : MemoryOrder) : Nat × Nat :=
  InterlockedExchangeAdd w loc value

/-- Bit pattern of -static_cast of the value to the signed type of width w,
cast back to the unsigned register width: the twos-complement negation of a
w-byte value (the generated machine negation wraps on the register width). -/
def negBits (w : WidthClass) (value : Nat) : Nat :=
  (w.modulus - value % w.modulus) % w.modulus

/-- detail::atomic_fetch_sub, MSVC branch (lines 133 to 137): subtraction is
addition of the negated value. -/
def atomic_fetch_sub (w : WidthClass) (loc value : Nat) (order : MemoryOrder) : Nat × Nat :=
  atomic_fetch_add w loc (negBits w value) order

/-- detail::atomic_xor_fetch, MSVC branch (lines 139 to 153): performs
_InterlockedXor, then returns old_val XOR value, the NEW value. -/
def atomic_xor_fetch (w : WidthClass) (loc value : Nat) (order : MemoryOrder) : Nat × Nat :=
  ((InterlockedXor loc value).1 ^^^ value, (InterlockedXor loc value).2)

/-- detail::atomic_compare_exchange, MSVC branch (lines 155 to 187):
performs _InterlockedCompareExchange with the current expected value as
comparand; on a matching original value it returns true, otherwise it
writes the original value back into expected and returns false.  Result is
(success, new location, new expected). -/
def atomic_compare_exchange (w : WidthClass) (loc expected desired : Nat)
    (success_order failure_order : MemoryOrder) : Bool × Nat × Nat :=
  let r := InterlockedCompareExchange loc desired expected
  if r.1 = expected then (true, r.2, expected) else (false, r.2, r.1)

end Msvc

namespace Gcc

/-- to_gcc_order (atomic_ops.h lines 193 to 202): maps the MemoryOrder
enumeration onto the predefined ATOMIC constants 0, 2, 3, 4, 5 of the
GCC builtins. -/
def to_gcc_order : MemoryOrder → Int
  | .Relaxed => 0
  | .Acquire => 2
  | .Release => 3
  | .AcqRel => 4
  | .SeqCst => 5

/-- detail::atomic_load, GCC branch (lines 204 to 207): atomic_load_n of
the builtins, a pure read. -/
def atomic_load (w : WidthClass) (loc : Nat) (order : MemoryOrder) : Nat × Nat :=
  (loc, loc)

/-- detail::atomic_store, GCC branch (lines 209 to 212): atomic_store_n. -/
def atomic_store (w : WidthClass) (loc value : Nat) (order : MemoryOrder) : Nat :=
  value

/-- detail::atomic_exchange, GCC branch (lines 214 to 217):
atomic_exchange_n, returns the original value. -/
def atomic_exchange (w : WidthClass) (loc value : Nat) (order : MemoryOrder) : Nat × Nat :=
  (loc, value)

/-- detail::atomic_fetch_add, GCC branch (lines 219 to 222): the builtin
adds with wrap-around on the bit width and returns the original value. -/
def atomic_fetch_add (w : WidthClass) (loc value : Nat) (order : MemoryOrder) : Nat × Nat :=
  (loc, (loc + value) % w.modulus)

/-- detail::atomic_fetch_sub, GCC branch (lines 224 to 227): the builtin
subtracts with wrap-around on the bit width and returns the original
value; on natural-number bit patterns the wrapped difference is
(loc + (modulus - value mod modulus)) mod modulus. -/
def atomic_fetch_sub (w : WidthClass) (loc value : Nat) (order : MemoryOrder) : Nat × Nat :=
  (loc, (loc + (w.modulus - value % w.modulus)) % w.modulus)

/-- detail::atomic_xor_fetch, GCC branch (lines 229 to 232): the builtin
XORs and returns the NEW value. -/
def atomic_xor_fetch (w : WidthClass) (loc value : Nat) (order : MemoryOrder) : Nat × Nat :=
  (loc ^^^ value, loc ^^^ value)

/-- detail::atomic_compare_exchange, GCC branch (lines 234 to 239): the
strong builtin compare-exchange; on success the location becomes the
desired value, on failure the expected value is overwritten with the
current location content.  Result is (success, new location, new
expected). -/
def atomic_compare_exchange (w : WidthClass) (loc expected desired : Nat)
    (success_order failure_order : MemoryOrder) : Bool × Nat × Nat :=
  if loc = expected then (true, desired, expected) else (false, loc, loc)

end Gcc

/-- mtk_atomic_load (lines 247 to 250): forwards to the detail branch
selected by the preprocessor, here by the Toolchain tag. -/
def mtk_atomic_load (tc : Toolchain) (w : WidthClass) (loc : Nat)
    (order : MemoryOrder) : Nat × Nat :=
  match tc with
  | .msvc => Msvc.atomic_load w loc order
  | .gcc => Gcc.atomic_load w loc order

/-- mtk_atomic_store (lines 252 to 255). -/
def mtk_atomic_store (tc : Toolchain) (w : WidthClass) (loc value : Nat)
    (order : MemoryOrder) : Nat :=
  match tc with
  | .msvc => Msvc.atomic_store w loc value order
  | .gcc => Gcc.atomic_store w loc value order

/-- mtk_atomic_exchange (lines 257 to 260). -/
def mtk_atomic_exchange (tc : Toolchain) (w : WidthClass) (loc value : Nat)
    (order : MemoryOrder) : Nat × Nat :=
  match tc with
  | .msvc => Msvc.atomic_exchange w loc value order
  | .gcc => Gcc.atomic_exchange w loc value order

/-- mtk_atomic_fetch_add (lines 262 to 265). -/
def mtk_atomic_fetch_add (tc : Toolchain) (w : WidthClass) (loc value : Nat)
    (order : MemoryOrder) : Nat × Nat :=
  match tc with
  | .msvc => Msvc.atomic_fetch_add w loc value order
  | .gcc => Gcc.atomic_fetch_add w loc value order

/-- mtk_atomic_fetch_sub (lines 267 to 270). -/
def mtk_atomic_fetch_sub (tc : Toolchain) (w : WidthClass) (loc value : Nat)
    (order : MemoryOrder) : Nat × Nat :=
  match tc with
  | .msvc => Msvc.atomic_fetch_sub w loc value order
  | .gcc => Gcc.atomic_fetch_sub w loc value order

/-- mtk_atomic_xor_fetch (lines 272 to 275). -/
def mtk_atomic_xor_fetch (tc : Toolchain) (w : WidthClass) (loc value : Nat)
    (order : MemoryOrder) : Nat × Nat :=
  match tc with
  | .msvc => Msvc.atomic_xor_fetch w loc value order
  | .gcc => Gcc.atomic_xor_fetch w loc value order

/-- mtk_atomic_compare_exchange (lines 277 to 282). -/
def mtk_atomic_compare_exchange (tc : Toolchain) (w : WidthClass)
    (loc expected desired : Nat)
    (success_order failure_order : MemoryOrder) : Bool × Nat × Nat :=
  match tc with
  | .msvc => Msvc.atomic_compare_exchange w loc expected desired success_order failure_order
  | .gcc => Gcc.atomic_compare_exchange w loc expected desired success_order failure_order

/-- ATOMIC_RELAXED constant of the compatibility shim (line 299). -/
def __ATOMIC_RELAXED : Int := 0

/-- ATOMIC_CONSUME constant of the compatibility shim (line 300). -/
def __ATOMIC_CONSUME : Int := 1

/-- ATOMIC_ACQUIRE constant of the compatibility shim (line 301). -/
def __ATOMIC_ACQUIRE : Int := 2

/-- ATOMIC_RELEASE constant of the compatibility shim (line 302). -/
def __ATOMIC_RELEASE : Int := 3

/-- ATOMIC_ACQ_REL constant of the compatibility shim (line 303). -/
def __ATOMIC_ACQ_REL : Int := 4

/-- ATOMIC_SEQ_CST constant of the compatibility shim (line 304). -/
def __ATOMIC_SEQ_CST : Int := 5

/-- mtk_map_gcc_order (atomic_ops.h lines 307 to 316): the switch has cases
for RELAXED, ACQUIRE, RELEASE, ACQ_REL and SEQ_CST and a default returning
SeqCst; there is NO case for CONSUME (= 1), so 1 takes the default. -/
def mtk_map_gcc_order (order : Int) : MemoryOrder :=
  if order = __ATOMIC_RELAXED then MemoryOrder.Relaxed
  else if order = __ATOMIC_ACQUIRE then MemoryOrder.Acquire
  else if order = __ATOMIC_RELEASE then MemoryOrder.Release
  else if order = __ATOMIC_ACQ_REL then MemoryOrder.AcqRel
  else if order = __ATOMIC_SEQ_CST then MemoryOrder.SeqCst
  else MemoryOrder.SeqCst

/-- Linear scan of the bits of x from index idx upward with the given fuel;
returns the first set bit index, or none when the fuel runs out.  This is
the documented behaviour of the hardware bit scan used below. -/
def scanForward (x : Nat) : Nat → Nat → Option Nat
  | 0, _ => none
  | fuel + 1, idx => if x.testBit idx then some idx else scanForward x fuel (idx + 1)

/-- Models _BitScanForward64: scans the 64 bits from the least significant
bit; some index when a set bit exists (the intrinsic returns nonzero and
writes the index), none when the word is zero (the intrinsic returns 0 and
leaves the index undefined). -/
def BitScanForward64 (x : Nat) : Option Nat :=
  scanForward x 64 0

/-- Models the builtin ctzll of GCC/Clang: the number of trailing zero bits
of a nonzero 64-bit word, which is the index of its lowest set bit; the
documented contract of the builtin leaves the result UNDEFINED for the
zero input, embedded here as none. -/
def ctzll (x : Nat) : Option Nat :=
  if x = 0 then none else BitScanForward64 x

/-- lowest_set_bit_64 of mt_kahypar::utils (bit utilities header, both
preprocessor branches).  The MSVC branch tests the _BitScanForward64
result and returns the sentinel 64 for the zero word, so it is total; the
GCC branch returns the builtin ctzll directly, whose result is undefined
(none) for the zero word. -/
def lowest_set_bit_64 (tc : Toolchain) (x : Nat) : Option Int :=
  match tc with
  | .msvc =>
    match BitScanForward64 x with
    | some i => some (Int.ofNat i)
    | none => some 64
  | .gcc => Option.map (fun i => Int.ofNat i) (ctzll x)

/-- log2 of mt_kahypar::utils: constexpr recursion returning 0 for every
input at most 1 (including 0 and all negative inputs) and 1 + log2 (x >> 1)
otherwise.  For the arguments of the recursive branch (x at least 2) the
arithmetic shift by one of the source equals division by two, and the
measure toNat shrinks, so the recursion is well founded and the function is
total. -/
def log2 (x : Int) : Int :=
  if x ≤ 1 then 0 else 1 + log2 (x / 2)
termination_by x.toNat
decreasing_by
  simp_wf
  omega

/-- Helper: the modulus of every width class is positive. -/
theorem WidthClass.modulus_pos (w : WidthClass) : 0 < w.modulus :=
  Nat.pos_pow_of_pos _ (by omega)

/-- Helper: both toolchain branches leave a loaded location unchanged and
return its content; in the MSVC branch this is OR with the zero mask. -/
theorem atomic_load_eq (tc : Toolchain) (w : WidthClass) (loc : Nat)
    (order : MemoryOrder) : mtk_atomic_load tc w loc order = (loc, loc) := by
  cases tc <;>
    simp [mtk_atomic_load, Msvc.atomic_load, Gcc.atomic_load, Msvc.InterlockedOr]

/-- Helper: wrapped subtraction composed with adding the subtrahend back is
the identity modulo M. -/
theorem sub_wrap_cancel (M loc r : Nat) (hM : 0 < M) (hr : r ≤ M) :
    ((loc + (M - r)) % M + r) % M = loc % M := by
  rw [Nat.mod_add_mod, Nat.add_assoc, Nat.sub_add_cancel hr, Nat.add_mod_right]

/-- C1: for every operation in {load, store, exchange, fetch_add,
fetch_sub, xor_fetch, compare_exchange}, every width class, every
MemoryOrder argument and every initial location value and operand, the
MSVC branch and the GCC/Clang branch of the detail namespace return the
same value and leave the location with the same content: the two toolchain
embeddings are observationally equivalent. -/
theorem msvc_gcc_observational_equiv (w : WidthClass) (o so fo : MemoryOrder)
    (loc v expected : Nat) :
    Msvc.atomic_load w loc o = Gcc.atomic_load w loc o ∧
    Msvc.atomic_store w loc v o = Gcc.atomic_store w loc v o ∧
    Msvc.atomic_exchange w loc v o = Gcc.atomic_exchange w loc v o ∧
    Msvc.atomic_fetch_add w loc v o = Gcc.atomic_fetch_add w loc v o ∧
    Msvc.atomic_fetch_sub w loc v o = Gcc.atomic_fetch_sub w loc v o ∧
    Msvc.atomic_xor_fetch w loc v o = Gcc.atomic_xor_fetch w loc v o ∧
    Msvc.atomic_compare_exchange w loc expected v so fo
      = Gcc.atomic_compare_exchange w loc expected v so fo := by
  refine ⟨?_, rfl, rfl, rfl, ?_, rfl, ?_⟩
  · simp [Msvc.atomic_load, Gcc.atomic_load, Msvc.InterlockedOr]
  · simp [Msvc.atomic_fetch_sub, Msvc.atomic_fetch_add, Msvc.negBits,
      Gcc.atomic_fetch_sub, Msvc.InterlockedExchangeAdd, Nat.add_mod_mod]
  · simp only [Msvc.atomic_compare_exchange, Gcc.atomic_compare_exchange,
      Msvc.InterlockedCompareExchange]
    by_cases h : loc = expected <;> simp [h]

/-- C2: on every toolchain, width class and ordering pair, the strong
compare-exchange with a location holding exactly the expected value returns
true, stores the desired value and leaves expected unchanged; with a
location holding a different value it returns false, leaves the location
unchanged and overwrites expected with the current location content. -/
theorem mtk_compare_exchange_spec (tc : Toolchain) (w : WidthClass)
    (loc expected desired : Nat) (so fo : MemoryOrder) :
    (loc = expected →
      mtk_atomic_compare_exchange tc w loc expected desired so fo
        = (true, desired, expected)) ∧
    (loc ≠ expected →
      mtk_atomic_compare_exchange tc w loc expected desired so fo
        = (false, loc, loc)) := by
  constructor <;> intro h <;> cases tc <;>
    simp [mtk_atomic_compare_exchange, Msvc.atomic_compare_exchange,
      Gcc.atomic_compare_exchange, Msvc.InterlockedCompareExchange, h]

/-- C2 witness: both branches of the compare-exchange contract at concrete
inputs, a matching location 5 = 5 and a mismatching location 7 against
expected 5. -/
theorem mtk_compare_exchange_spec_witness :
    mtk_atomic_compare_exchange Toolchain.gcc WidthClass.W4 5 5 9
      MemoryOrder.SeqCst MemoryOrder.Relaxed = (true, 9, 5) ∧
    mtk_atomic_compare_exchange Toolchain.msvc WidthClass.W1 7 5 9
      MemoryOrder.SeqCst MemoryOrder.Relaxed = (false, 7, 7) :=
  ⟨(mtk_compare_exchange_spec Toolchain.gcc WidthClass.W4 5 5 9
      MemoryOrder.SeqCst MemoryOrder.Relaxed).1 rfl,
   (mtk_compare_exchange_spec Toolchain.msvc WidthClass.W1 7 5 9
      MemoryOrder.SeqCst MemoryOrder.Relaxed).2 (by decide)⟩

/-- C7: on every toolchain, width class, ordering, delta and initial value,
fetch_add returns the pre-operation value and a subsequent load of the
location returns the sum reduced modulo 2 ^ (8 w). -/
theorem mtk_fetch_add_spec (tc : Toolchain) (w : WidthClass) (loc v : Nat)
    (o lo : MemoryOrder) :
    (mtk_atomic_fetch_add tc w loc v o).1 = loc ∧
    (mtk_atomic_load tc w (mtk_atomic_fetch_add tc w loc v o).2 lo).1
      = (loc + v) % w.modulus := by
  cases tc <;>
    simp [mtk_atomic_fetch_add, mtk_atomic_load, Msvc.atomic_fetch_add,
      Gcc.atomic_fetch_add, Msvc.InterlockedExchangeAdd, Msvc.atomic_load,
      Gcc.atomic_load, Msvc.InterlockedOr]

/-- C8: on every toolchain and width class, a store of a value immediately
followed by a same-thread load, under any pair of orderings, returns the
stored value. -/
theorem mtk_store_load_round_trip (tc : Toolchain) (w : WidthClass)
    (loc v : Nat) (so lo : MemoryOrder) :
    (mtk_atomic_load tc w (mtk_atomic_store tc w loc v so) lo).1 = v := by
  cases tc <;>
    simp [mtk_atomic_load, mtk_atomic_store, Msvc.atomic_store,
      Gcc.atomic_store, Msvc.atomic_load, Gcc.atomic_load,
      Msvc.InterlockedOr, Msvc.InterlockedExchange]

/-- C9: on every toolchain, width class and ordering, a load returns the
location content and leaves the location holding exactly that content; in
particular the MSVC emulation of the load as an OR-with-zero
read-modify-write is value preserving. -/
theorem mtk_load_value_preserving (tc : Toolchain) (w : WidthClass)
    (loc : Nat) (o : MemoryOrder) :
    mtk_atomic_load tc w loc o = (loc, loc) :=
  atomic_load_eq tc w loc o

/-- C4: on every toolchain, width class, ordering and operand pair,
fetch_add and fetch_sub return the pre-operation value and wrap modulo
2 ^ (8 w): the sum is reduced modulo the width modulus, and adding the
delta back onto the post-subtraction content restores the initial content
modulo the width modulus.  Both functions are total, so no operand,
including the bit pattern of the minimum signed value, can fault. -/
theorem mtk_fetch_add_sub_wrapping (tc : Toolchain) (w : WidthClass)
    (loc v : Nat) (o : MemoryOrder) :
    (mtk_atomic_fetch_add tc w loc v o).1 = loc ∧
    (mtk_atomic_fetch_add tc w loc v o).2 = (loc + v) % w.modulus ∧
    (mtk_atomic_fetch_sub tc w loc v o).1 = loc ∧
    ((mtk_atomic_fetch_sub tc w loc v o).2 + v) % w.modulus
      = loc % w.modulus := by
  have hM : 0 < w.modulus := WidthClass.modulus_pos w
  have hr : v % w.modulus ≤ w.modulus := Nat.le_of_lt (Nat.mod_lt _ hM)
  cases tc <;>
    refine ⟨rfl, rfl, rfl, ?_⟩ <;>
    simp only [mtk_atomic_fetch_sub, Msvc.atomic_fetch_sub,
      Gcc.atomic_fetch_sub, Msvc.atomic_fetch_add, Msvc.negBits,
      Msvc.InterlockedExchangeAdd, Nat.add_mod_mod] <;>
    rw [← Nat.add_mod_mod] <;>
    exact sub_wrap_cancel w.modulus loc (v % w.modulus) hM hr

/-- C5 counterexample: the integer code 1 (ATOMIC_CONSUME) is NOT mapped to
Acquire; the switch in the source has no case for it, so it takes the
default branch. -/
theorem mtk_map_gcc_order_consume_not_acquire :
    ¬ (mtk_map_gcc_order __ATOMIC_CONSUME = MemoryOrder.Acquire) := by
  decide

/-- C5 amended: mtk_map_gcc_order maps 0 to Relaxed, 2 to Acquire, 3 to
Release, 4 to AcqRel and 5 to SeqCst, and maps every other integer code,
including 1 (Consume), to the strongest ordering SeqCst. -/
theorem mtk_map_gcc_order_table (n : Int)
    (h0 : n ≠ __ATOMIC_RELAXED) (h2 : n ≠ __ATOMIC_ACQUIRE)
    (h3 : n ≠ __ATOMIC_RELEASE) (h4 : n ≠ __ATOMIC_ACQ_REL)
    (h5 : n ≠ __ATOMIC_SEQ_CST) :
    mtk_map_gcc_order __ATOMIC_RELAXED = MemoryOrder.Relaxed ∧
    mtk_map_gcc_order __ATOMIC_ACQUIRE = MemoryOrder.Acquire ∧
    mtk_map_gcc_order __ATOMIC_RELEASE = MemoryOrder.Release ∧
    mtk_map_gcc_order __ATOMIC_ACQ_REL = MemoryOrder.AcqRel ∧
    mtk_map_gcc_order __ATOMIC_SEQ_CST = MemoryOrder.SeqCst ∧
    mtk_map_gcc_order __ATOMIC_CONSUME = MemoryOrder.SeqCst ∧
    mtk_map_gcc_order n = MemoryOrder.SeqCst := by
  refine ⟨by decide, by decide, by decide, by decide, by decide, by decide, ?_⟩
  simp [mtk_map_gcc_order, h0, h2, h3, h4, h5]

/-- C5 witness: the amended table applied at the concrete unrecognized code
1, the Consume constant. -/
theorem mtk_map_gcc_order_table_witness :
    (1 : Int) ≠ __ATOMIC_RELAXED ∧ mtk_map_gcc_order 1 = MemoryOrder.SeqCst :=
  ⟨by decide,
   (mtk_map_gcc_order_table 1 (by decide) (by decide) (by decide)
     (by decide) (by decide)).2.2.2.2.2.2⟩

/-- C6: on every toolchain, width class, ordering, mask and initial value,
xor_fetch returns the post-operation value (the initial value XOR the
mask), the location holds that same value afterwards, and applying
xor_fetch twice with the same mask restores the original content. -/
theorem mtk_xor_fetch_spec (tc : Toolchain) (w : WidthClass)
    (loc mask : Nat) (o : MemoryOrder) :
    (mtk_atomic_xor_fetch tc w loc mask o).1 = loc ^^^ mask ∧
    (mtk_atomic_xor_fetch tc w loc mask o).2 = loc ^^^ mask ∧
    (mtk_atomic_xor_fetch tc w
      (mtk_atomic_xor_fetch tc w loc mask o).2 mask o).2 = loc := by
  cases tc <;>
    simp [mtk_atomic_xor_fetch, Msvc.atomic_xor_fetch, Gcc.atomic_xor_fetch,
      Msvc.InterlockedXor, Nat.xor_cancel_right]

/-- Helper: a successful bit scan returns a set bit index at or above the
start index, below which (and at or above the start) every bit is clear. -/
theorem scanForward_some (x : Nat) :
    ∀ fuel idx i, scanForward x fuel idx = some i →
      x.testBit i = true ∧ idx ≤ i ∧
      ∀ j, idx ≤ j → j < i → x.testBit j = false := by
  intro fuel
  induction fuel with
  | zero =>
    intro idx i h
    simp [scanForward] at h
  | succ n ih =>
    intro idx i h
    rw [scanForward] at h
    by_cases hb : x.testBit idx
    · rw [if_pos hb] at h
      injection h with h
      subst h
      exact ⟨hb, Nat.le_refl _, fun j hj1 hj2 => absurd hj1 (by omega)⟩
    · rw [if_neg hb] at h
      obtain ⟨h1, h2, h3⟩ := ih (idx + 1) i h
      refine ⟨h1, by omega, fun j hj1 hj2 => ?_⟩
      rcases Nat.eq_or_lt_of_le hj1 with heq | hlt
      · rw [← heq]
        exact Bool.eq_false_iff.mpr hb
      · exact h3 j (by omega) hj2

/-- Helper: an exhausted bit scan means that every bit in the scanned range
is clear. -/
theorem scanForward_none (x : Nat) :
    ∀ fuel idx, scanForward x fuel idx = none →
      ∀ j, idx ≤ j → j < idx + fuel → x.testBit j = false := by
  intro fuel
  induction fuel with
  | zero =>
    intro idx h j hj1 hj2
    exact absurd hj2 (by omega)
  | succ n ih =>
    intro idx h j hj1 hj2
    rw [scanForward] at h
    by_cases hb : x.testBit idx
    · rw [if_pos hb] at h
      exact absurd h (by simp)
    · rw [if_neg hb] at h
      rcases Nat.eq_or_lt_of_le hj1 with heq | hlt
      · rw [← heq]
        exact Bool.eq_false_iff.mpr hb
      · exact ih (idx + 1) h j (by omega) (by omega)

/-- Helper: a nonzero 64-bit word has a successful bit scan. -/
theorem BitScanForward64_some (x : Nat) (hx : x < 2 ^ 64) (hnz : x ≠ 0) :
    ∃ i, BitScanForward64 x = some i := by
  cases h : BitScanForward64 x with
  | some i => exact ⟨i, rfl⟩
  | none =>
    exfalso
    apply hnz
    apply Nat.eq_of_testBit_eq
    intro i
    rw [Nat.zero_testBit]
    by_cases hi : i < 64
    · exact scanForward_none x 64 0 h i (Nat.zero_le i) (by omega)
    · exact Nat.testBit_eq_false_of_lt
        (Nat.lt_of_lt_of_le hx (Nat.pow_le_pow_right (by omega) (by omega)))

/-- C3 counterexample: on the GCC/Clang toolchain branch the all-zero input
does NOT yield the sentinel 64; the builtin ctzll leaves the zero input
undefined, so the claim that every toolchain returns 64 fails. -/
theorem lowest_set_bit_64_gcc_zero_not_sentinel :
    ¬ (lowest_set_bit_64 Toolchain.gcc 0 = some 64) := by
  decide

/-- C3 amended: the MSVC branch of lowest_set_bit_64 returns the sentinel
64 (the bit width) on the all-zero input, the GCC/Clang branch has no
defined result there, and for every nonzero 64-bit input both branches
return the index of the lowest set bit. -/
theorem lowest_set_bit_64_amended (x : Nat) (hx : x < 2 ^ 64) (hnz : x ≠ 0) :
    lowest_set_bit_64 Toolchain.msvc 0 = some 64 ∧
    lowest_set_bit_64 Toolchain.gcc 0 = none ∧
    ∃ i : Nat, lowest_set_bit_64 Toolchain.msvc x = some (Int.ofNat i) ∧
      lowest_set_bit_64 Toolchain.gcc x = some (Int.ofNat i) ∧
      x.testBit i = true ∧ ∀ j, j < i → x.testBit j = false := by
  refine ⟨by decide, by decide, ?_⟩
  obtain ⟨i, hi⟩ := BitScanForward64_some x hx hnz
  obtain ⟨h1, h2, h3⟩ := scanForward_some x 64 0 i hi
  refine ⟨i, ?_, ?_, h1, fun j hj => h3 j (Nat.zero_le j) hj⟩
  · simp [lowest_set_bit_64, hi]
  · simp [lowest_set_bit_64, ctzll, hnz, hi]

/-- C3 witness: the amended statement applied at the concrete nonzero input
8 = 0b1000, whose lowest set bit has index 3. -/
theorem lowest_set_bit_64_amended_witness :
    (8 : Nat) < 2 ^ 64 ∧
    ∃ i : Nat, lowest_set_bit_64 Toolchain.msvc 8 = some (Int.ofNat i) ∧
      lowest_set_bit_64 Toolchain.gcc 8 = some (Int.ofNat i) ∧
      Nat.testBit 8 i = true ∧ ∀ j, j < i → Nat.testBit 8 j = false :=
  ⟨by decide, (lowest_set_bit_64_amended 8 (by decide) (by decide)).2.2⟩

/-- Helper: single-step unfolding equation of the recursive log2. -/
theorem log2_eq (x : Int) :
    log2 x = if x ≤ 1 then 0 else 1 + log2 (x / 2) := by
  rw [log2]

/-- Helper: on natural-number inputs, log2 computes the natural floor
logarithm in base 2 (both are 0 for inputs 0 and 1). -/
theorem log2_ofNat (n : Nat) : log2 (n : Int) = (Nat.log 2 n : Int) := by
  induction n using Nat.strong_induction_on with
  | _ n ih =>
    by_cases h : n ≤ 1
    · rw [log2_eq, if_pos (by omega)]
      interval_cases n
      · simp [Nat.log_zero_right]
      · simp [Nat.log_one_right]
    · have h2 : 2 ≤ n := by omega
      have hnot : ¬ ((n : Int) ≤ 1) := by omega
      rw [log2_eq, if_neg hnot]
      have hdiv : ((n : Int)) / 2 = ((n / 2 : Nat) : Int) := by omega
      rw [hdiv, ih (n / 2) (Nat.div_lt_self (by omega) (by omega))]
      have hlog : Nat.log 2 n = Nat.log 2 (n / 2) + 1 := by
        have hd := Nat.log_div_base 2 n
        have hp : 0 < Nat.log 2 n := Nat.log_pos (by omega) h2
        omega
      rw [hlog]
      push_cast
      ring

/-- C10: the recursive constexpr log2 is total (it is accepted by
well-founded recursion on the shrinking argument), returns 0 for every
input at most 1, including 0 and all negative inputs, and returns the
floor of the base-2 logarithm for every input at least 1. -/
theorem log2_spec (x : Int) :
    (x ≤ 1 → log2 x = 0) ∧ (1 ≤ x → log2 x = (Nat.log 2 x.toNat : Int)) := by
  constructor
  · intro h
    rw [log2_eq, if_pos h]
  · intro h
    have hx : x = (x.toNat : Int) := (Int.toNat_of_nonneg (by omega)).symm
    have hn := log2_ofNat x.toNat
    rw [← hx] at hn
    exact hn

/-- C10 witness: log2 applied through the theorem at the negative input -7
and at the positive input 8, where the natural floor logarithm of 8 is 3. -/
theorem log2_spec_witness :
    log2 (-7) = 0 ∧ log2 8 = (Nat.log 2 (Int.toNat 8) : Int) ∧
    Nat.log 2 (Int.toNat 8) = 3 :=
  ⟨(log2_spec (-7)).1 (by decide), (log2_spec 8).2 (by decide),
   Nat.log_eq_of_pow_le_of_lt_pow (by norm_num) (by norm_num)⟩

end AtomicOps

